import Mathlib

/-!
Verification of the AWS KMS Tink client (`integration/awskms/aws_kms_client.go`)
against its specification.

The Go source is shallowly embedded below.  Strings are modelled by `String`
(with operations carried out on the underlying `List Char`); the AWS SDK's
opaque KMS client values (v1 `kmsiface.KMSAPI` and v2 client) are modelled by
the inductive `KMSHandle`; Go `error` values are modelled by the inductive
`KMSErr`, with one constructor per distinct error produced by the source file
(sentinel errors compare by identity in Go, which matches constructor
equality here).  File I/O (`os.Open` + `csv.ReadAll`) is modelled by a
`CSVReadResult` environment: each path maps to either "cannot open", a CSV
reader error, or the parsed records.
-/

set_option autoImplicit false

namespace Awskms

/-! ### Plain string operations used by the Go source

`strHasPfx s p` is Go `strings.HasPrefix(s, p)`, `strTrimPfx s p` is
Go `strings.TrimPrefix(s, p)`, `strToLower` is `strings.ToLower` (the
strings this client lowercases are ASCII, where `Char.toLower` agrees
with Go's Unicode lowering). -/

def strHasPfx (s p : String) : Bool :=
  p.data.isPrefixOf s.data

def strTrimPfx (s p : String) : String :=
  if strHasPfx s p then ⟨s.data.drop p.data.length⟩ else s

def strToLower (s : String) : String :=
  ⟨s.data.map Char.toLower⟩

/-- Go constant `awsPrefix = "aws-kms://"`. -/
def awsPfx : String := "aws-kms://"

/-- Go constant `defaultTimeout = 5 * time.Second`, in nanoseconds. -/
def defaultTimeout : Nat := 5000000000

/-! ### Errors

One constructor per distinct Go error value or `fmt.Errorf` format in the
source file; payloads are the format arguments. -/

inductive KMSErr where
  /-- `errors.New` with a fixed message (e.g. the duplicate-option errors). -/
  | msg (s : String)
  /-- `errCred = errors.New("invalid credential path")` -/
  | errCred
  /-- `errBadFile = errors.New("cannot open credential path")` -/
  | errBadFile
  /-- `errCredCSV = errors.New("malformed credential CSV file")` -/
  | errCredCSV
  /-- `errors.New("not a valid CSV credential file")` in `extractCredsCSV` -/
  | notValidCSV
  /-- an error returned by `csv.NewReader(f).ReadAll()` and propagated verbatim -/
  | csvReadErr (s : String)
  /-- `errors.New("extracting region from URI failed")` in `getRegion` -/
  | regionFailed
  /-- `fmt.Errorf("invalid EncryptionContextName: %v", name)` -/
  | invalidCtxName (n : Nat)
  /-- `fmt.Errorf("uriPrefix must start with %q, but got %q", awsPrefix, uriPrefix)` -/
  | badURIPfx (expected got : String)
  /-- `fmt.Errorf("keyURI must start with prefix %s, but got %s", c.keyURIPrefix, keyURI)` -/
  | unsupportedKeyURI (expectedPfx got : String)
  /-- `fmt.Errorf("building AEAD: %w", err)` -/
  | buildingAEAD (e : KMSErr)
  /-- `fmt.Errorf("failed setting option: %v", err)` -/
  | failedSettingOption (e : KMSErr)
deriving DecidableEq, Repr

/-! ### `getRegion`: the fixed regular expression

`getRegion` compiles the constant pattern
`aws-kms://arn:(aws[a-zA-Z0-9-_]*):kms:([a-z0-9-]+):` and runs
`FindStringSubmatch`, an unanchored leftmost search.  Both character
classes exclude `':'`, the character that must follow each of them, so
greedy matching never backtracks and the search is equivalent to trying a
deterministic matcher at every start position, leftmost first.  On any
match `FindStringSubmatch` returns exactly 3 entries (whole match plus the
two groups), so the Go length test `len(r) != 3` is exactly match failure.
`regexp.Compile` of this constant pattern cannot fail. -/

/-- The class `[a-zA-Z0-9-_]` of the partition group (ASCII). -/
def isPartChar (c : Char) : Bool :=
  c.isAlpha || c.isDigit || c == '-' || c == '_'

/-- The class `[a-z0-9-]` of the region group (ASCII). -/
def isRegionChar (c : Char) : Bool :=
  c.isLower || c.isDigit || c == '-'

/-- The literal head of the pattern, including the literal `aws` that
starts the partition group. -/
def arnLit : List Char := "aws-kms://arn:aws".data

/-- The literal `:kms:` between the two groups. -/
def kmsLit : List Char := ":kms:".data

/-- Strip a literal: `stripPfxL p l = some r` iff `l = p ++ r`. -/
def stripPfxL : List Char → List Char → Option (List Char)
  | [], l => some l
  | _ :: _, [] => none
  | p :: ps, c :: cs => if p = c then stripPfxL ps cs else none

/-- Run the pattern anchored at the head of `l`; returns the region group. -/
def matchAt (l : List Char) : Option (List Char) :=
  match stripPfxL arnLit l with
  | none => none
  | some r1 =>
    match stripPfxL kmsLit (r1.dropWhile isPartChar) with
    | none => none
    | some r2 =>
      if r2.takeWhile isRegionChar ≠ [] ∧ (r2.dropWhile isRegionChar).headD ' ' = ':'
      then some (r2.takeWhile isRegionChar) else none

/-- Unanchored leftmost search for the pattern, as `FindStringSubmatch`. -/
def findRegion : List Char → Option (List Char)
  | [] => none
  | c :: cs =>
    match matchAt (c :: cs) with
    | some r => some r
    | none => findRegion cs

/-- `getRegion` from the source: extract the region from a key URI. -/
def getRegion (keyURI : String) : Except KMSErr String :=
  match findRegion keyURI.data with
  | some r => Except.ok ⟨r⟩
  | none => Except.error KMSErr.regionFailed

/-- Declarative reading of the fixed grammar
`aws-kms://arn:(aws[a-zA-Z0-9-_]*):kms:([a-z0-9-]+):` occurring
(unanchored) somewhere in the identifier. -/
def GrammarMatch (u : String) : Prop :=
  ∃ pre part reg post : List Char,
    u.data = pre ++ arnLit ++ part ++ kmsLit ++ reg ++ ':' :: post ∧
    part.all isPartChar = true ∧ reg ≠ [] ∧ reg.all isRegionChar = true

/-! ### Credential files (`extractCredsCSV`, `getKMSFromCredentialPath`) -/

/-- Result of `os.Open` followed by `csv.NewReader(f).ReadAll()` on one path. -/
inductive CSVReadResult where
  /-- `os.Open` failed -/
  | cannotOpen
  /-- `ReadAll` returned an error -/
  | readErr (s : String)
  /-- `ReadAll` succeeded with these records -/
  | records (lines : List (List String))
deriving DecidableEq, Repr

/-- `credentials.Value` (the two fields this code fills). -/
structure CredValue where
  accessKeyID : String
  secretAccessKey : String
deriving DecidableEq, Repr

/-- Go `len(lines) > 0 && len(lines[0]) == 1`. -/
def firstLineSingle : List (List String) → Bool
  | [] => false
  | l0 :: _ => l0.length == 1

/-- `extractCredsCSV` from the source, over the modelled file contents. -/
def extractCredsCSV : CSVReadResult → Except KMSErr CredValue
  | CSVReadResult.cannotOpen => Except.error KMSErr.errBadFile
  | CSVReadResult.readErr m => Except.error (KMSErr.csvReadErr m)
  | CSVReadResult.records lines =>
    if firstLineSingle lines then Except.error KMSErr.notValidCSV
    else if lines.length < 2 then Except.error KMSErr.errCredCSV
    else if (lines.getD 1 []).length < 4 then Except.error KMSErr.errCredCSV
    else Except.ok { accessKeyID := (lines.getD 1 []).getD 2 ""
                     secretAccessKey := (lines.getD 1 []).getD 3 "" }

/-- The credential source baked into a session-built KMS handle. -/
inductive CredsSource where
  /-- `session.NewSession` without explicit credentials (`getKMS`) -/
  | defaultCreds
  /-- `credentials.NewStaticCredentialsFromCreds(*c)` -/
  | staticCreds (v : CredValue)
  /-- `credentials.NewSharedCredentials(credentialPath, "default")` -/
  | sharedINI (path : String)
deriving DecidableEq, Repr

/-- A v1 `kmsiface.KMSAPI` / v2 KMS client value.  Caller-supplied clients
are opaque (`external`); clients built by this file carry the data that
determined them. -/
inductive KMSHandle where
  /-- a pre-built client passed in by the caller -/
  | external (id : Nat)
  /-- `kms.New(session)` for a session with this region and credential source -/
  | fromSession (region : String) (creds : CredsSource)
  /-- `kmsv2.NewFromConfig(cfg, kmsOpts...)` for a config loaded with these
  (opaque, numbered) load options and KMS options -/
  | fromV2Config (loadOpts kmsOpts : List Nat)
deriving DecidableEq, Repr

/-- `getKMS` from the source.  `session.NewSession` and `kms.New` are
environmental constructors that do not fail for a well-formed config; they
are modelled as succeeding. -/
def getKMS (uriPfxArg : String) : Except KMSErr KMSHandle :=
  match getRegion uriPfxArg with
  | Except.error e => Except.error e
  | Except.ok r => Except.ok (KMSHandle.fromSession r CredsSource.defaultCreds)

/-- `getKMSFromCredentialPath` from the source.  `fs` models the file
system seen by `extractCredsCSV`. -/
def getKMSFromCredentialPath (fs : String → CSVReadResult)
    (uriPfxArg credentialPath : String) : Except KMSErr KMSHandle :=
  match getRegion uriPfxArg with
  | Except.error e => Except.error e
  | Except.ok r =>
    if credentialPath.length = 0 then Except.error KMSErr.errCred
    else
      match extractCredsCSV (fs credentialPath) with
      | Except.ok c => Except.ok (KMSHandle.fromSession r (CredsSource.staticCreds c))
      | Except.error KMSErr.errBadFile => Except.error KMSErr.errBadFile
      | Except.error KMSErr.errCredCSV => Except.error KMSErr.errCredCSV
      | Except.error _ =>
        Except.ok (KMSHandle.fromSession r (CredsSource.sharedINI credentialPath))

/-! ### Encryption context names

Go `EncryptionContextName` is a `uint`; `0` is the unset zero value,
`AssociatedData = 1`, `LegacyAdditionalData = 2`.  The
`encryptionContextNames` map is modelled as a partial function. -/

def AssociatedData : Nat := 1

def LegacyAdditionalData : Nat := 2

def encryptionContextNames (n : Nat) : Option String :=
  if n = AssociatedData then some "associatedData"
  else if n = LegacyAdditionalData then some "additionalData"
  else none

/-- `(n EncryptionContextName) valid()` -/
def ctxNameValid (n : Nat) : Bool :=
  (encryptionContextNames n).isSome

/-! ### The v2 client and its options -/

/-- `v2Client` struct.  The slices of opaque option functions
(`loadOpts`, `kmsOpts`) are modelled as lists of numbered tokens; the
source only ever asks for their length and passes them through. -/
structure V2Client where
  kms : Option KMSHandle := none
  kmsOpts : List Nat := []
  loadOpts : List Nat := []
  timeout : Nat := 0
deriving DecidableEq, Repr

/-- The `V2ClientOption` values constructible from this package. -/
inductive V2ClientOption where
  | withV2KMS (k : KMSHandle)
  | withAPITimeout (t : Nat)
  | withLoadOptions (opts : List Nat)
  | withKMSOptions (opts : List Nat)
deriving DecidableEq, Repr

/-- `set` of each `V2ClientOption` (the closures in `WithV2KMS`,
`WithAPITimeout`, `WithLoadOptions`, `WithKMSOptions`). -/
def V2ClientOption.set : V2ClientOption → V2Client → Except KMSErr V2Client
  | V2ClientOption.withV2KMS k, v =>
    if v.kms.isSome then Except.error (KMSErr.msg "V2KMS client already set")
    else Except.ok { v with kms := some k }
  | V2ClientOption.withAPITimeout t, v =>
    if v.timeout ≠ 0 then Except.error (KMSErr.msg "timeout already set")
    else Except.ok { v with timeout := t }
  | V2ClientOption.withLoadOptions o, v =>
    if v.loadOpts.length > 0 then Except.error (KMSErr.msg "load options already set")
    else Except.ok { v with loadOpts := o }
  | V2ClientOption.withKMSOptions o, v =>
    if v.kmsOpts.length > 0 then Except.error (KMSErr.msg "KMS options already set")
    else Except.ok { v with kmsOpts := o }

/-- The option loop inside `WithV2KMSOptions`. -/
def applyV2Opts : List V2ClientOption → V2Client → Except KMSErr V2Client
  | [], v => Except.ok v
  | o :: os, v =>
    match o.set v with
    | Except.error e => Except.error e
    | Except.ok v2 => applyV2Opts os v2

/-! ### The client descriptor and its options -/

/-- Which `builder` closure is installed on the descriptor: the default
v1 closure set by `NewClientWithOptions`, or `v.BuildAead` of a `v2Client`
(whose pointed-to state is carried here). -/
inductive BuilderState where
  | v1
  | v2 (v : V2Client)
deriving DecidableEq, Repr

/-- `awsClient` struct.  The v1 default builder closure reads and writes
`a.kms` itself, so its state is the `kms` field below. -/
structure AwsClient where
  keyURIPfx : String
  kms : Option KMSHandle := none
  encryptionContextName : Nat := 0
  builder : BuilderState := BuilderState.v1
deriving DecidableEq, Repr

/-- The `ClientOption` values constructible from this package. -/
inductive ClientOption where
  | withCredentialPath (p : String)
  | withKMS (k : KMSHandle)
  | withEncryptionContextName (n : Nat)
  | useV2
  | withV2KMSOptions (opts : List V2ClientOption)
deriving DecidableEq, Repr

/-- `set` of each `ClientOption` (the closures in `WithCredentialPath`,
`WithKMS`, `WithEncryptionContextName`, `UseV2`, `WithV2KMSOptions`).
`fs` models the file system read by `WithCredentialPath`. -/
def ClientOption.set (fs : String → CSVReadResult) :
    ClientOption → AwsClient → Except KMSErr AwsClient
  | ClientOption.withCredentialPath p, a =>
    if a.kms.isSome then
      Except.error (KMSErr.msg "WithCredentialPath option cannot be used, KMS client already set")
    else
      match getKMSFromCredentialPath fs a.keyURIPfx p with
      | Except.error e => Except.error e
      | Except.ok k => Except.ok { a with kms := some k }
  | ClientOption.withKMS k, a =>
    if a.kms.isSome then
      Except.error (KMSErr.msg "WithKMS option cannot be used, KMS client already set")
    else Except.ok { a with kms := some k }
  | ClientOption.withEncryptionContextName n, a =>
    if ¬ ctxNameValid n then Except.error (KMSErr.invalidCtxName n)
    else if a.encryptionContextName ≠ 0 then
      Except.error (KMSErr.msg "encryptionContextName already set")
    else Except.ok { a with encryptionContextName := n }
  | ClientOption.useV2, a => Except.ok { a with builder := BuilderState.v2 {} }
  | ClientOption.withV2KMSOptions opts, a =>
    match applyV2Opts opts {} with
    | Except.error e => Except.error (KMSErr.failedSettingOption e)
    | Except.ok v => Except.ok { a with builder := BuilderState.v2 v }

/-- The option loop inside `NewClientWithOptions`, wrapping each failure
in `fmt.Errorf("failed setting option: %v", err)`. -/
def applyOpts (fs : String → CSVReadResult) :
    List ClientOption → AwsClient → Except KMSErr AwsClient
  | [], a => Except.ok a
  | o :: os, a =>
    match o.set fs a with
    | Except.error e => Except.error (KMSErr.failedSettingOption e)
    | Except.ok a2 => applyOpts fs os a2

/-- `NewClientWithOptions` from the source. -/
def NewClientWithOptions (fs : String → CSVReadResult)
    (uriPfxArg : String) (opts : List ClientOption) : Except KMSErr AwsClient :=
  if ¬ strHasPfx (strToLower uriPfxArg) awsPfx then
    Except.error (KMSErr.badURIPfx awsPfx uriPfxArg)
  else
    match applyOpts fs opts { keyURIPfx := uriPfxArg } with
    | Except.error e => Except.error e
    | Except.ok a =>
      Except.ok (if a.encryptionContextName = 0
                 then { a with encryptionContextName := AssociatedData } else a)

/-! ### `Supported`, `GetAEAD` and the two builder strategies -/

/-- `Supported` from the source: `strings.HasPrefix(keyURI, c.keyURIPrefix)`. -/
def Supported (c : AwsClient) (keyURI : String) : Bool :=
  strHasPfx keyURI c.keyURIPfx

/-- The AEAD adapters (`newAWSAEAD` / `newAWSV2AEAD`): a key URI, a KMS
handle, the encryption-context name, and (v2) the timeout. -/
inductive AEAD where
  | v1 (keyURI : String) (kms : KMSHandle) (ctxName : Nat)
  | v2 (keyURI : String) (kms : KMSHandle) (ctxName : Nat) (timeout : Nat)
deriving DecidableEq, Repr

def AEAD.keyURI : AEAD → String
  | AEAD.v1 u _ _ => u
  | AEAD.v2 u _ _ _ => u

def AEAD.ctxName : AEAD → Nat
  | AEAD.v1 _ _ n => n
  | AEAD.v2 _ _ n _ => n

def AEAD.handle : AEAD → KMSHandle
  | AEAD.v1 _ k _ => k
  | AEAD.v2 _ k _ _ => k

/-- The default v1 builder closure installed by `NewClientWithOptions`: it
memoizes the constructed handle on `a.kms`.  Returns (result, updated
descriptor, whether a new handle was constructed in this call). -/
def v1Build (a : AwsClient) (keyURI : String) (ctx : Nat) :
    Except KMSErr AEAD × AwsClient × Bool :=
  match a.kms with
  | some k => (Except.ok (AEAD.v1 keyURI k ctx), a, false)
  | none =>
    match getKMS a.keyURIPfx with
    | Except.error e => (Except.error e, a, false)
    | Except.ok k => (Except.ok (AEAD.v1 keyURI k ctx), { a with kms := some k }, true)

/-- The timeout-defaulting step at the top of `BuildAead`:
`if v.timeout == 0 { v.timeout = defaultTimeout }`. -/
def V2Client.withDefaultTimeout (v : V2Client) : V2Client :=
  if v.timeout = 0 then { v with timeout := defaultTimeout } else v

/-- `(v *v2Client) BuildAead` from the source: fills in the default
timeout, then memoizes the constructed handle on `v.kms`.
`config.LoadDefaultConfig` and `kmsv2.NewFromConfig` are environmental
constructors, modelled as succeeding with a handle determined by the
configured options.  Returns (result, updated v2 state, whether a new
handle was constructed in this call). -/
def V2Client.BuildAead (v : V2Client) (keyURI : String) (ctx : Nat) :
    Except KMSErr AEAD × V2Client × Bool :=
  match (V2Client.withDefaultTimeout v).kms with
  | some k =>
    (Except.ok (AEAD.v2 keyURI k ctx (V2Client.withDefaultTimeout v).timeout),
     V2Client.withDefaultTimeout v, false)
  | none =>
    (Except.ok (AEAD.v2 keyURI
        (KMSHandle.fromV2Config (V2Client.withDefaultTimeout v).loadOpts
          (V2Client.withDefaultTimeout v).kmsOpts)
        ctx (V2Client.withDefaultTimeout v).timeout),
     { V2Client.withDefaultTimeout v with
        kms := some (KMSHandle.fromV2Config (V2Client.withDefaultTimeout v).loadOpts
          (V2Client.withDefaultTimeout v).kmsOpts) }, true)

/-- `GetAEAD` from the source.  Returns (result, updated descriptor,
whether a new handle was constructed in this call). -/
def GetAEAD (c : AwsClient) (keyURI : String) :
    Except KMSErr AEAD × AwsClient × Bool :=
  if ¬ Supported c keyURI then
    (Except.error (KMSErr.unsupportedKeyURI c.keyURIPfx keyURI), c, false)
  else
    let uri := strTrimPfx keyURI awsPfx
    match c.builder with
    | BuilderState.v1 =>
      match v1Build c uri c.encryptionContextName with
      | (Except.error e, c2, b) => (Except.error (KMSErr.buildingAEAD e), c2, b)
      | (Except.ok ad, c2, b) => (Except.ok ad, c2, b)
    | BuilderState.v2 v =>
      match v.BuildAead uri c.encryptionContextName with
      | (Except.error e, v2, b) =>
        (Except.error (KMSErr.buildingAEAD e), { c with builder := BuilderState.v2 v2 }, b)
      | (Except.ok ad, v2, b) =>
        (Except.ok ad, { c with builder := BuilderState.v2 v2 }, b)

/-- The handle the active strategy would reuse, if already resolved. -/
def handleOf (c : AwsClient) : Option KMSHandle :=
  match c.builder with
  | BuilderState.v1 => c.kms
  | BuilderState.v2 v => v.kms

/-- Run a sequence of `GetAEAD` calls on one descriptor, counting how many
of them constructed a fresh handle. -/
def runCalls : AwsClient → List String → AwsClient × Nat
  | c, [] => (c, 0)
  | c, u :: us =>
    let r := GetAEAD c u
    let p := runCalls r.2.1 us
    (p.1, (if r.2.2 then 1 else 0) + p.2)

end Awskms

namespace Awskms

/-- Decidable equality for `Except`, used to evaluate the model on
concrete inputs. -/
instance exceptDecEq {ε α : Type} [DecidableEq ε] [DecidableEq α] :
    DecidableEq (Except ε α) := fun x y =>
  match x, y with
  | Except.ok a, Except.ok b =>
    if h : a = b then isTrue (by rw [h]) else isFalse (by intro hc; cases hc; exact h rfl)
  | Except.error a, Except.error b =>
    if h : a = b then isTrue (by rw [h]) else isFalse (by intro hc; cases hc; exact h rfl)
  | Except.ok _, Except.error _ => isFalse (by intro hc; cases hc)
  | Except.error _, Except.ok _ => isFalse (by intro hc; cases hc)

/-! quick sanity examples (concrete evaluations of the embedding) -/

example : getRegion "aws-kms://arn:aws:kms:us-east-2:1234:key/x" = Except.ok "us-east-2" := by decide

example : getRegion "aws-kms://aws:kms:us-east-2:1234:key/x" = Except.error KMSErr.regionFailed := by decide

example : extractCredsCSV (CSVReadResult.records [["u","p","AKID","SECRET","link"], ["a","b","c","d","e"]])
    = Except.ok { accessKeyID := "c", secretAccessKey := "d" } := by decide

example : extractCredsCSV (CSVReadResult.records [["only"]]) = Except.error KMSErr.notValidCSV := by decide

/-! ### Lemmas about `stripPfxL`, `takeWhile` and `dropWhile` -/

theorem stripPfxL_eq_some (p : List Char) : ∀ l r, stripPfxL p l = some r ↔ l = p ++ r := by
  induction p with
  | nil => intro l r; simp [stripPfxL]
  | cons c cs ih =>
    intro l r
    cases l with
    | nil => simp [stripPfxL]
    | cons d ds =>
      simp only [stripPfxL, List.cons_append]
      by_cases h : c = d
      · subst h
        simp [ih]
      · rw [if_neg h]
        constructor
        · intro he; exact absurd he (by simp)
        · intro he
          injection he with h1 _
          exact absurd h1.symm h

theorem takeWhile_all_p (p : Char → Bool) (l : List Char) : (l.takeWhile p).all p = true := by
  induction l with
  | nil => rfl
  | cons c cs ih =>
    rw [List.takeWhile_cons]
    cases h : p c with
    | true => simp [h, ih]
    | false => rfl

theorem takeWhile_append_cons (p : Char → Bool) (c : Char) (hc : p c = false) :
    ∀ t r : List Char, t.all p = true →
      (t ++ c :: r).takeWhile p = t ∧ (t ++ c :: r).dropWhile p = c :: r := by
  intro t
  induction t with
  | nil => intro r _; simp [List.takeWhile_cons, List.dropWhile_cons, hc]
  | cons d ds ih =>
    intro r hall
    simp only [List.all_cons, Bool.and_eq_true] at hall
    simp [List.cons_append, List.takeWhile_cons, List.dropWhile_cons, hall.1, ih r hall.2]

/-! ### Characterizing `matchAt`, `findRegion` and `getRegion` -/

theorem matchAt_nil : matchAt [] = none := by decide

theorem matchAt_iff (l reg : List Char) :
    matchAt l = some reg ↔
    ∃ part post : List Char,
      l = arnLit ++ part ++ kmsLit ++ reg ++ ':' :: post ∧
      part.all isPartChar = true ∧ reg ≠ [] ∧ reg.all isRegionChar = true := by
  constructor
  · intro h
    unfold matchAt at h
    split at h
    · exact absurd h (by simp)
    · next r1 e1 =>
      split at h
      · exact absurd h (by simp)
      · next r2 e2 =>
        split at h
        · next hcond =>
          injection h with h
          subst h
          rcases hcond with ⟨hne, hhead⟩
          have hpost : ∃ post, r2.dropWhile isRegionChar = ':' :: post := by
            cases hd : r2.dropWhile isRegionChar with
            | nil => rw [hd] at hhead; exact absurd hhead (by decide)
            | cons c t =>
              rw [hd] at hhead
              simp only [List.headD_cons] at hhead
              exact ⟨t, by simp [hd, hhead]⟩
          rcases hpost with ⟨post, hpost⟩
          have hl : l = arnLit ++ r1 := (stripPfxL_eq_some _ _ _).mp e1
          have hr1 : r1.dropWhile isPartChar = kmsLit ++ r2 := (stripPfxL_eq_some _ _ _).mp e2
          refine ⟨r1.takeWhile isPartChar, post, ?_, takeWhile_all_p .., hne, takeWhile_all_p ..⟩
          calc l = arnLit ++ r1 := hl
            _ = arnLit ++ (r1.takeWhile isPartChar ++ r1.dropWhile isPartChar) := by
                rw [List.takeWhile_append_dropWhile]
            _ = arnLit ++ (r1.takeWhile isPartChar ++ (kmsLit ++ r2)) := by rw [hr1]
            _ = arnLit ++ (r1.takeWhile isPartChar ++ (kmsLit ++
                  (r2.takeWhile isRegionChar ++ r2.dropWhile isRegionChar))) := by
                rw [List.takeWhile_append_dropWhile]
            _ = arnLit ++ (r1.takeWhile isPartChar ++ (kmsLit ++
                  (r2.takeWhile isRegionChar ++ ':' :: post))) := by rw [hpost]
            _ = arnLit ++ r1.takeWhile isPartChar ++ kmsLit ++ r2.takeWhile isRegionChar
                  ++ ':' :: post := by simp [List.append_assoc]
        · exact absurd h (by simp)
  · rintro ⟨part, post, hl, hall, hne, hreg⟩
    have h1 : stripPfxL arnLit l = some (part ++ (kmsLit ++ (reg ++ ':' :: post))) := by
      rw [stripPfxL_eq_some]
      rw [hl]; simp [List.append_assoc]
    have hkms : ∀ X : List Char, kmsLit ++ X = ':' :: ("kms:".data ++ X) := fun _ => rfl
    have hd1 : (part ++ (kmsLit ++ (reg ++ ':' :: post))).dropWhile isPartChar
        = kmsLit ++ (reg ++ ':' :: post) := by
      rw [hkms]
      exact (takeWhile_append_cons isPartChar ':' (by decide) part _ hall).2
    have h2 : stripPfxL kmsLit ((part ++ (kmsLit ++ (reg ++ ':' :: post))).dropWhile isPartChar)
        = some (reg ++ ':' :: post) := by
      rw [hd1, stripPfxL_eq_some]
    have h3 := takeWhile_append_cons isRegionChar ':' (by decide) reg post hreg
    unfold matchAt
    split
    · next e => rw [h1] at e; cases e
    · next r1 e =>
      rw [h1] at e
      injection e with e
      subst e
      split
      · next e2 => rw [h2] at e2; cases e2
      · next r2 e2 =>
        rw [h2] at e2
        injection e2 with e2
        subst e2
        rw [if_pos ⟨by rw [h3.1]; exact hne, by rw [h3.2]; rfl⟩, h3.1]

theorem findRegion_app (pre t r : List Char) (h : matchAt t = some r) :
    ∃ r2, findRegion (pre ++ t) = some r2 := by
  induction pre with
  | nil =>
    cases t with
    | nil => rw [matchAt_nil] at h; cases h
    | cons c cs => exact ⟨r, by simp only [List.nil_append, findRegion, h]⟩
  | cons p ps ih =>
    rcases ih with ⟨r2, hr2⟩
    cases e : matchAt (p :: (ps ++ t)) with
    | some r3 => exact ⟨r3, by simp [findRegion, e]⟩
    | none => exact ⟨r2, by simp [findRegion, e, hr2]⟩

theorem findRegion_some (l : List Char) (r : List Char) (h : findRegion l = some r) :
    ∃ pre t, l = pre ++ t ∧ matchAt t = some r := by
  induction l with
  | nil => simp [findRegion] at h
  | cons c cs ih =>
    simp only [findRegion] at h
    split at h
    · next e =>
      injection h with h
      subst h
      exact ⟨[], c :: cs, rfl, e⟩
    · next e =>
      rcases ih h with ⟨pre, t, hlt, hm⟩
      exact ⟨c :: pre, t, by rw [List.cons_append, hlt], hm⟩

theorem getRegion_ok_iff (u : String) : (∃ r, getRegion u = Except.ok r) ↔ GrammarMatch u := by
  constructor
  · rintro ⟨r, hr⟩
    unfold getRegion at hr
    split at hr
    · next rl e =>
      rcases findRegion_some _ _ e with ⟨pre, t, hlt, hm⟩
      rcases (matchAt_iff t rl).mp hm with ⟨part, post, ht, hall, hne, hreg⟩
      exact ⟨pre, part, rl, post, by rw [hlt, ht]; simp [List.append_assoc], hall, hne, hreg⟩
    · exact absurd hr (by simp)
  · rintro ⟨pre, part, reg, post, hu, hall, hne, hreg⟩
    have hm : matchAt (arnLit ++ part ++ kmsLit ++ reg ++ ':' :: post) = some reg :=
      (matchAt_iff _ _).mpr ⟨part, post, rfl, hall, hne, hreg⟩
    have hfr : ∃ r2, findRegion u.data = some r2 := by
      rw [show u.data = pre ++ (arnLit ++ part ++ kmsLit ++ reg ++ ':' :: post) by
        rw [hu]; simp [List.append_assoc]]
      exact findRegion_app pre _ reg hm
    rcases hfr with ⟨r2, hr2⟩
    exact ⟨⟨r2⟩, by simp [getRegion, hr2]⟩

/-- Every value `extractCredsCSV` can return. -/
theorem extractCredsCSV_shapes (f : CSVReadResult) :
    (∃ c, extractCredsCSV f = Except.ok c) ∨
    extractCredsCSV f = Except.error KMSErr.errBadFile ∨
    extractCredsCSV f = Except.error KMSErr.errCredCSV ∨
    extractCredsCSV f = Except.error KMSErr.notValidCSV ∨
    (∃ m, extractCredsCSV f = Except.error (KMSErr.csvReadErr m)) := by
  cases f with
  | cannotOpen => right; left; rfl
  | readErr m => right; right; right; right; exact ⟨m, rfl⟩
  | records lines =>
    simp only [extractCredsCSV]
    split_ifs <;> simp

/-! ### Claim theorems -/

/-- C3: for every client with URI prefix p and every key URI s, Supported(s)
is true if and only if p is a byte-exact literal string prefix of s (an
append decomposition of s at p exists), independent of any other structure
of s; the check is a pure comparison of the two strings (no I/O). -/
theorem c3_supported_iff_literal :
    ∀ (c : AwsClient) (s : String),
      Supported c s = true ↔ ∃ t, s.data = c.keyURIPfx.data ++ t := by
  intro c s
  unfold Supported strHasPfx
  rw [List.isPrefixOf_iff_prefix]
  constructor
  · rintro ⟨t, ht⟩; exact ⟨t, ht.symm⟩
  · rintro ⟨t, ht⟩; exact ⟨t, ht.symm⟩

/-- C5: region extraction succeeds (returning the region capture group)
exactly when the identifier contains a match of the fixed grammar
`aws-kms://arn:(aws[a-zA-Z0-9-_]*):kms:([a-z0-9-]+):` with its two capture
groups, and fails with the distinct region-extraction error otherwise; in
particular `getRegion "aws-kms://arn:aws:kms:us-east-2:..."` returns
`"us-east-2"`, and an input missing the `arn:` segment fails. -/
theorem c5_getRegion_grammar :
    (∀ u, (∃ r, getRegion u = Except.ok r) ↔ GrammarMatch u) ∧
    (∀ u, ¬ GrammarMatch u → getRegion u = Except.error KMSErr.regionFailed) ∧
    getRegion "aws-kms://arn:aws:kms:us-east-2:123456789012:key/abc" = Except.ok "us-east-2" ∧
    getRegion "aws-kms://aws:kms:us-east-2:123456789012:key/abc"
      = Except.error KMSErr.regionFailed := by
  refine ⟨getRegion_ok_iff, ?_, by decide, by decide⟩
  intro u hng
  cases hfr : findRegion u.data with
  | some r => exact absurd ((getRegion_ok_iff u).mp ⟨⟨r⟩, by simp [getRegion, hfr]⟩) hng
  | none => simp [getRegion, hfr]

/-- C6 counterexample: on a parse whose first line has exactly one field and
whose second line has fewer than four fields, the claim requires the
malformed-CSV error, but the code reports "not a valid CSV credential file"
(the single-column check runs first). -/
theorem c6_counterexample :
    extractCredsCSV (CSVReadResult.records [["x"], ["a", "b"]])
      = Except.error KMSErr.notValidCSV ∧
    extractCredsCSV (CSVReadResult.records [["x"], ["a", "b"]])
      ≠ Except.error KMSErr.errCredCSV := by
  exact ⟨by decide, by decide⟩

/-- C6 (amended): for every parse with at least two lines, a first line with
more than one field, and a second line with at least four fields,
extractCredsCSV returns access-key-id from the second line's 0-indexed
column 2 and secret-access-key from column 3; a parse with fewer than two
lines or a second line with fewer than four fields yields the malformed-CSV
error provided the first line does not have exactly one field; a first line
with exactly one field yields the "not a CSV credential file" signal (this
check runs first) rather than a crash; an unopenable file yields the
distinct "cannot open" error. -/
theorem c6_extractCredsCSV_amended :
    (∀ (l0 l1 : List String) (rest : List (List String)), 1 < l0.length → 3 < l1.length →
        extractCredsCSV (CSVReadResult.records (l0 :: l1 :: rest)) =
          Except.ok { accessKeyID := l1.getD 2 "", secretAccessKey := l1.getD 3 "" }) ∧
    (∀ lines : List (List String), firstLineSingle lines = false →
        (lines.length < 2 ∨ (lines.getD 1 []).length < 4) →
        extractCredsCSV (CSVReadResult.records lines) = Except.error KMSErr.errCredCSV) ∧
    (∀ (l0 : List String) (rest : List (List String)), l0.length = 1 →
        extractCredsCSV (CSVReadResult.records (l0 :: rest))
          = Except.error KMSErr.notValidCSV) ∧
    extractCredsCSV CSVReadResult.cannotOpen = Except.error KMSErr.errBadFile := by
  refine ⟨?_, ?_, ?_, by decide⟩
  · intro l0 l1 rest h0 h1
    have hf : firstLineSingle (l0 :: l1 :: rest) = false := by
      rw [show firstLineSingle (l0 :: l1 :: rest) = (l0.length == 1) from rfl,
        beq_eq_false_iff_ne]
      omega
    simp only [extractCredsCSV]
    rw [if_neg (by simp [hf]), if_neg (by simp only [List.length_cons]; omega),
      if_neg (by simp only [List.getD_cons_succ, List.getD_cons_zero]; omega)]
    simp only [List.getD_cons_succ, List.getD_cons_zero]
  · intro lines hf hor
    simp only [extractCredsCSV]
    rw [if_neg (by simp [hf])]
    by_cases h2 : lines.length < 2
    · rw [if_pos h2]
    · rw [if_neg h2, if_pos (hor.resolve_left h2)]
  · intro l0 rest h
    simp only [extractCredsCSV]
    rw [if_pos (by simp [firstLineSingle, h])]

/-- C1 counterexample: a credential file that parses as an empty CSV table
(fewer than two lines) makes extractCredsCSV report the malformed-CSV error;
the claim requires the resolver to hand off to the INI parser on "malformed",
but the code returns the error to the caller without the fallback. -/
theorem c1_counterexample :
    getKMSFromCredentialPath (fun _ => CSVReadResult.records [])
        "aws-kms://arn:aws:kms:us-east-2:key" "creds"
      = Except.error KMSErr.errCredCSV ∧
    getKMSFromCredentialPath (fun _ => CSVReadResult.records [])
        "aws-kms://arn:aws:kms:us-east-2:key" "creds"
      ≠ Except.ok (KMSHandle.fromSession "us-east-2" (CredsSource.sharedINI "creds")) := by
  exact ⟨by decide, by decide⟩

/-- C1 (amended): for every credential file path, resolution hands off to the
key-value (INI) parser exactly when the CSV parser reports "not this format"
(first line has a single column) or any other CSV reader error; the "cannot
open" error and the malformed-CSV error are returned to the caller without
attempting the INI fallback. -/
theorem c1_ini_fallback_amended (fs : String → CSVReadResult) (pfx path r : String)
    (hr : getRegion pfx = Except.ok r) (hp : ¬ path.length = 0) :
    (getKMSFromCredentialPath fs pfx path
        = Except.ok (KMSHandle.fromSession r (CredsSource.sharedINI path))
      ↔ extractCredsCSV (fs path) = Except.error KMSErr.notValidCSV ∨
        ∃ m, extractCredsCSV (fs path) = Except.error (KMSErr.csvReadErr m)) ∧
    (extractCredsCSV (fs path) = Except.error KMSErr.errBadFile →
      getKMSFromCredentialPath fs pfx path = Except.error KMSErr.errBadFile) ∧
    (extractCredsCSV (fs path) = Except.error KMSErr.errCredCSV →
      getKMSFromCredentialPath fs pfx path = Except.error KMSErr.errCredCSV) := by
  unfold getKMSFromCredentialPath
  rw [hr]
  simp only [if_neg hp]
  cases hf : fs path with
  | cannotOpen => simp [extractCredsCSV]
  | readErr m => simp [extractCredsCSV]
  | records lines =>
    simp only [extractCredsCSV]
    split_ifs <;> simp

/-! ### Step characterizations of `GetAEAD` -/

theorem kms_withDefaultTimeout (v : V2Client) :
    (V2Client.withDefaultTimeout v).kms = v.kms := by
  unfold V2Client.withDefaultTimeout
  split <;> rfl

theorem getAEAD_unsupported (c : AwsClient) (s : String) (hs : Supported c s = false) :
    GetAEAD c s = (Except.error (KMSErr.unsupportedKeyURI c.keyURIPfx s), c, false) := by
  simp [GetAEAD, hs]

theorem getAEAD_v1_some (c : AwsClient) (s : String) (k : KMSHandle)
    (hs : Supported c s = true) (hb : c.builder = BuilderState.v1) (hk : c.kms = some k) :
    GetAEAD c s
      = (Except.ok (AEAD.v1 (strTrimPfx s awsPfx) k c.encryptionContextName), c, false) := by
  simp [GetAEAD, hs, hb, v1Build, hk]

theorem getAEAD_v1_none_err (c : AwsClient) (s : String) (e : KMSErr)
    (hs : Supported c s = true) (hb : c.builder = BuilderState.v1) (hk : c.kms = none)
    (hg : getKMS c.keyURIPfx = Except.error e) :
    GetAEAD c s = (Except.error (KMSErr.buildingAEAD e), c, false) := by
  simp [GetAEAD, hs, hb, v1Build, hk, hg]

theorem getAEAD_v1_none_ok (c : AwsClient) (s : String) (k : KMSHandle)
    (hs : Supported c s = true) (hb : c.builder = BuilderState.v1) (hk : c.kms = none)
    (hg : getKMS c.keyURIPfx = Except.ok k) :
    GetAEAD c s = (Except.ok (AEAD.v1 (strTrimPfx s awsPfx) k c.encryptionContextName),
      { c with kms := some k }, true) := by
  simp [GetAEAD, hs, hb, v1Build, hk, hg]

theorem getAEAD_v2_some (c : AwsClient) (s : String) (v : V2Client) (k : KMSHandle)
    (hs : Supported c s = true) (hb : c.builder = BuilderState.v2 v) (hk : v.kms = some k) :
    GetAEAD c s = (Except.ok (AEAD.v2 (strTrimPfx s awsPfx) k c.encryptionContextName
        (V2Client.withDefaultTimeout v).timeout),
      { c with builder := BuilderState.v2 (V2Client.withDefaultTimeout v) }, false) := by
  simp [GetAEAD, hs, hb, V2Client.BuildAead, kms_withDefaultTimeout, hk]

theorem getAEAD_v2_none (c : AwsClient) (s : String) (v : V2Client)
    (hs : Supported c s = true) (hb : c.builder = BuilderState.v2 v) (hk : v.kms = none) :
    GetAEAD c s = (Except.ok (AEAD.v2 (strTrimPfx s awsPfx)
        (KMSHandle.fromV2Config (V2Client.withDefaultTimeout v).loadOpts
          (V2Client.withDefaultTimeout v).kmsOpts)
        c.encryptionContextName (V2Client.withDefaultTimeout v).timeout),
      { c with builder := BuilderState.v2 { V2Client.withDefaultTimeout v with
          kms := some (KMSHandle.fromV2Config (V2Client.withDefaultTimeout v).loadOpts
            (V2Client.withDefaultTimeout v).kmsOpts) } }, true) := by
  simp [GetAEAD, hs, hb, V2Client.BuildAead, kms_withDefaultTimeout, hk]

/-- C4: for every client c and key URI s with Supported(s) false, GetAEAD
returns an error reporting both the expected prefix and the received URI,
returns no AEAD, and leaves the descriptor untouched (the error is fatal for
this call; nothing is retried); for every s with Supported(s) true, GetAEAD
strips the scheme "aws-kms://" from s and delegates the remainder together
with the configured context-field name to the active handle-construction
strategy: any adapter it returns is bound to exactly that remainder and that
context-field name. -/
theorem c4_getAEAD_dispatch :
    ∀ (c : AwsClient) (s : String),
      (Supported c s = false →
        (GetAEAD c s).1 = Except.error (KMSErr.unsupportedKeyURI c.keyURIPfx s) ∧
        (GetAEAD c s).2.1 = c) ∧
      (∀ a, (GetAEAD c s).1 = Except.ok a →
        Supported c s = true ∧ a.keyURI = strTrimPfx s awsPfx ∧
        a.ctxName = c.encryptionContextName) := by
  intro c s
  constructor
  · intro hns
    rw [getAEAD_unsupported c s hns]
    exact ⟨rfl, rfl⟩
  · intro a ha
    cases hs : Supported c s with
    | false => rw [getAEAD_unsupported c s hs] at ha; simp at ha
    | true =>
      refine ⟨rfl, ?_⟩
      cases hb : c.builder with
      | v1 =>
        cases hk : c.kms with
        | some k =>
          rw [getAEAD_v1_some c s k hs hb hk] at ha
          simp only [Except.ok.injEq] at ha
          subst ha
          exact ⟨rfl, rfl⟩
        | none =>
          cases hg : getKMS c.keyURIPfx with
          | error e => rw [getAEAD_v1_none_err c s e hs hb hk hg] at ha; simp at ha
          | ok k =>
            rw [getAEAD_v1_none_ok c s k hs hb hk hg] at ha
            simp only [Except.ok.injEq] at ha
            subst ha
            exact ⟨rfl, rfl⟩
      | v2 v =>
        cases hk : v.kms with
        | some k =>
          rw [getAEAD_v2_some c s v k hs hb hk] at ha
          simp only [Except.ok.injEq] at ha
          subst ha
          exact ⟨rfl, rfl⟩
        | none =>
          rw [getAEAD_v2_none c s v hs hb hk] at ha
          simp only [Except.ok.injEq] at ha
          subst ha
          exact ⟨rfl, rfl⟩

/-- Witness for the amended C1 theorem at a concrete file system whose file
triggers a CSV reader error, which does fall back to the INI parser. -/
theorem c1_ini_fallback_amended_witness :
    getRegion "aws-kms://arn:aws:kms:us-east-2:key" = Except.ok "us-east-2" ∧
    ¬ ("creds".length = 0) ∧
    (getKMSFromCredentialPath (fun _ => CSVReadResult.readErr "bare quote")
        "aws-kms://arn:aws:kms:us-east-2:key" "creds"
      = Except.ok (KMSHandle.fromSession "us-east-2" (CredsSource.sharedINI "creds"))
      ↔ extractCredsCSV ((fun _ => CSVReadResult.readErr "bare quote") "creds")
          = Except.error KMSErr.notValidCSV ∨
        ∃ m, extractCredsCSV ((fun _ => CSVReadResult.readErr "bare quote") "creds")
          = Except.error (KMSErr.csvReadErr m)) := by
  refine ⟨by decide, by decide, ?_⟩
  exact (c1_ini_fallback_amended (fun _ => CSVReadResult.readErr "bare quote")
    "aws-kms://arn:aws:kms:us-east-2:key" "creds" "us-east-2" (by decide) (by decide)).1

/-! ### C2: strategy re-selection -/

/-- C2 counterexample: the claim says selecting a protocol-generation strategy
again after one was already chosen makes construction fail, but
NewClientWithOptions with UseV2 twice succeeds: the second selection silently
replaces the first. -/
theorem c2_counterexample :
    NewClientWithOptions (fun _ => CSVReadResult.cannotOpen)
        "aws-kms://arn:aws:kms:us-east-2:key"
        [ClientOption.useV2, ClientOption.useV2]
      = Except.ok { keyURIPfx := "aws-kms://arn:aws:kms:us-east-2:key",
                    kms := none, encryptionContextName := 1,
                    builder := BuilderState.v2 {} } := by decide

/-- C2 (amended): selecting a protocol-generation strategy when one is already
selected does not fail construction: the later selection replaces the previous
strategy (UseV2 always succeeds and installs a fresh v2 strategy;
WithV2KMSOptions succeeds whenever its inner options do, likewise replacing
the strategy).  Supplying an explicit pre-built handle together with a
credential-file option for the same (legacy) generation does fail at build
time, in either order, before any Encrypt/Decrypt/GetAEAD call. -/
theorem c2_strategy_amended :
    (∀ (fs : String → CSVReadResult) (a : AwsClient),
      ClientOption.set fs ClientOption.useV2 a
        = Except.ok { a with builder := BuilderState.v2 {} }) ∧
    (∀ (fs : String → CSVReadResult) (a : AwsClient)
        (opts : List V2ClientOption) (v : V2Client),
      applyV2Opts opts {} = Except.ok v →
      ClientOption.set fs (ClientOption.withV2KMSOptions opts) a
        = Except.ok { a with builder := BuilderState.v2 v }) ∧
    (∀ (fs : String → CSVReadResult) (p : String) (k : KMSHandle) (path : String),
      ∃ e, NewClientWithOptions fs p
        [ClientOption.withKMS k, ClientOption.withCredentialPath path]
        = Except.error e) ∧
    (∀ (fs : String → CSVReadResult) (p : String) (k : KMSHandle) (path : String),
      ∃ e, NewClientWithOptions fs p
        [ClientOption.withCredentialPath path, ClientOption.withKMS k]
        = Except.error e) := by
  refine ⟨fun fs a => rfl, ?_, ?_, ?_⟩
  · intro fs a opts v h
    simp [ClientOption.set, h]
  · intro fs p k path
    by_cases hp : strHasPfx (strToLower p) awsPfx = true
    · refine ⟨KMSErr.failedSettingOption
        (KMSErr.msg "WithCredentialPath option cannot be used, KMS client already set"), ?_⟩
      simp [NewClientWithOptions, hp, applyOpts, ClientOption.set]
    · exact ⟨KMSErr.badURIPfx awsPfx p, by simp [NewClientWithOptions, hp]⟩
  · intro fs p k path
    by_cases hp : strHasPfx (strToLower p) awsPfx = true
    · cases hg : getKMSFromCredentialPath fs p path with
      | error e =>
        refine ⟨KMSErr.failedSettingOption e, ?_⟩
        simp [NewClientWithOptions, hp, applyOpts, ClientOption.set, hg]
      | ok kk =>
        refine ⟨KMSErr.failedSettingOption
          (KMSErr.msg "WithKMS option cannot be used, KMS client already set"), ?_⟩
        simp [NewClientWithOptions, hp, applyOpts, ClientOption.set, hg]
    · exact ⟨KMSErr.badURIPfx awsPfx p, by simp [NewClientWithOptions, hp]⟩

/-- Witness for the amended C2 theorem: an inner v2 option list that succeeds
(one WithV2KMS), so WithV2KMSOptions replaces the strategy with its result. -/
theorem c2_strategy_amended_witness :
    applyV2Opts [V2ClientOption.withV2KMS (KMSHandle.external 7)] {}
        = Except.ok { kms := some (KMSHandle.external 7) } ∧
    ClientOption.set (fun _ => CSVReadResult.cannotOpen)
        (ClientOption.withV2KMSOptions [V2ClientOption.withV2KMS (KMSHandle.external 7)])
        { keyURIPfx := "aws-kms://x" }
      = Except.ok { keyURIPfx := "aws-kms://x",
                    builder := BuilderState.v2 { kms := some (KMSHandle.external 7) } } := by
  refine ⟨by decide, ?_⟩
  exact c2_strategy_amended.2.1 (fun _ => CSVReadResult.cannotOpen)
    { keyURIPfx := "aws-kms://x" } [V2ClientOption.withV2KMS (KMSHandle.external 7)]
    { kms := some (KMSHandle.external 7) } (by decide)
/-! ### C7: set-once options -/

/-- Options that supply the remote KMS handle. -/
def isHandleOpt : ClientOption → Bool
  | ClientOption.withCredentialPath _ => true
  | ClientOption.withKMS _ => true
  | _ => false

/-- Options that set the encryption-context field name. -/
def isCtxOpt : ClientOption → Bool
  | ClientOption.withEncryptionContextName _ => true
  | _ => false

theorem set_handle_conflict (fs : String → CSVReadResult) (o : ClientOption)
    (a a2 : AwsClient) (hh : isHandleOpt o = true) (hsome : a.kms.isSome = true) :
    ClientOption.set fs o a ≠ Except.ok a2 := by
  cases o with
  | withCredentialPath p => simp [ClientOption.set, hsome]
  | withKMS k => simp [ClientOption.set, hsome]
  | withEncryptionContextName n => simp [isHandleOpt] at hh
  | useV2 => simp [isHandleOpt] at hh
  | withV2KMSOptions o2 => simp [isHandleOpt] at hh

theorem set_handle_sets (fs : String → CSVReadResult) (o : ClientOption)
    (a a2 : AwsClient) (hh : isHandleOpt o = true)
    (ho : ClientOption.set fs o a = Except.ok a2) : a2.kms.isSome = true := by
  cases o with
  | withCredentialPath p =>
    simp only [ClientOption.set] at ho
    split at ho
    · simp at ho
    · split at ho
      · simp at ho
      · injection ho with ho
        subst ho
        rfl
  | withKMS k =>
    simp only [ClientOption.set] at ho
    split at ho
    · simp at ho
    · injection ho with ho
      subst ho
      rfl
  | withEncryptionContextName n => simp [isHandleOpt] at hh
  | useV2 => simp [isHandleOpt] at hh
  | withV2KMSOptions o2 => simp [isHandleOpt] at hh

theorem set_kms_of_not_handle (fs : String → CSVReadResult) (o : ClientOption)
    (a a2 : AwsClient) (hh : isHandleOpt o = false)
    (ho : ClientOption.set fs o a = Except.ok a2) : a2.kms = a.kms := by
  cases o with
  | withCredentialPath p => simp [isHandleOpt] at hh
  | withKMS k => simp [isHandleOpt] at hh
  | withEncryptionContextName n =>
    simp only [ClientOption.set] at ho
    split at ho
    · simp at ho
    · split at ho
      · simp at ho
      · injection ho with ho
        subst ho
        rfl
  | useV2 =>
    simp only [ClientOption.set] at ho
    injection ho with ho
    subst ho
    rfl
  | withV2KMSOptions o2 =>
    simp only [ClientOption.set] at ho
    split at ho
    · simp at ho
    · injection ho with ho
      subst ho
      rfl

theorem set_kms_mono (fs : String → CSVReadResult) (o : ClientOption)
    (a a2 : AwsClient) (k : KMSHandle) (hk : a.kms = some k)
    (ho : ClientOption.set fs o a = Except.ok a2) : a2.kms = some k := by
  by_cases hh : isHandleOpt o = true
  · exact absurd ho (set_handle_conflict fs o a a2 hh (by rw [hk]; rfl))
  · rw [set_kms_of_not_handle fs o a a2 (by simpa using hh) ho, hk]

theorem ctxNameValid_iff (n : Nat) : ctxNameValid n = true ↔ n = 1 ∨ n = 2 := by
  unfold ctxNameValid encryptionContextNames AssociatedData LegacyAdditionalData
  split_ifs with h1 h2
  · simp [h1]
  · simp [h1, h2]
  · simp [h1, h2]

theorem set_ctx_conflict (fs : String → CSVReadResult) (o : ClientOption)
    (a a2 : AwsClient) (hc : isCtxOpt o = true)
    (hnz : a.encryptionContextName ≠ 0) :
    ClientOption.set fs o a ≠ Except.ok a2 := by
  cases o with
  | withEncryptionContextName n =>
    simp only [ClientOption.set]
    split_ifs <;> simp_all
  | withCredentialPath p => simp [isCtxOpt] at hc
  | withKMS k => simp [isCtxOpt] at hc
  | useV2 => simp [isCtxOpt] at hc
  | withV2KMSOptions o2 => simp [isCtxOpt] at hc

theorem set_ctx_sets (fs : String → CSVReadResult) (o : ClientOption)
    (a a2 : AwsClient) (hc : isCtxOpt o = true)
    (ho : ClientOption.set fs o a = Except.ok a2) : a2.encryptionContextName ≠ 0 := by
  cases o with
  | withEncryptionContextName n =>
    simp only [ClientOption.set] at ho
    split at ho
    · simp at ho
    · next hv =>
      split at ho
      · simp at ho
      · injection ho with ho
        subst ho
        show n ≠ 0
        rcases (ctxNameValid_iff n).mp (not_not.mp hv) with h | h <;> omega
  | withCredentialPath p => simp [isCtxOpt] at hc
  | withKMS k => simp [isCtxOpt] at hc
  | useV2 => simp [isCtxOpt] at hc
  | withV2KMSOptions o2 => simp [isCtxOpt] at hc

theorem set_ctx_of_not_ctx (fs : String → CSVReadResult) (o : ClientOption)
    (a a2 : AwsClient) (hc : isCtxOpt o = false)
    (ho : ClientOption.set fs o a = Except.ok a2) :
    a2.encryptionContextName = a.encryptionContextName := by
  cases o with
  | withEncryptionContextName n => simp [isCtxOpt] at hc
  | withCredentialPath p =>
    simp only [ClientOption.set] at ho
    split at ho
    · simp at ho
    · split at ho
      · simp at ho
      · injection ho with ho
        subst ho
        rfl
  | withKMS k =>
    simp only [ClientOption.set] at ho
    split at ho
    · simp at ho
    · injection ho with ho
      subst ho
      rfl
  | useV2 =>
    simp only [ClientOption.set] at ho
    injection ho with ho
    subst ho
    rfl
  | withV2KMSOptions o2 =>
    simp only [ClientOption.set] at ho
    split at ho
    · simp at ho
    · injection ho with ho
      subst ho
      rfl

theorem set_ctx_mono (fs : String → CSVReadResult) (o : ClientOption)
    (a a2 : AwsClient) (hnz : a.encryptionContextName ≠ 0)
    (ho : ClientOption.set fs o a = Except.ok a2) :
    a2.encryptionContextName = a.encryptionContextName := by
  by_cases hc : isCtxOpt o = true
  · exact absurd ho (set_ctx_conflict fs o a a2 hc hnz)
  · exact set_ctx_of_not_ctx fs o a a2 (by simpa using hc) ho

theorem applyOpts_handle_dup (fs : String → CSVReadResult) :
    ∀ (opts : List ClientOption) (a : AwsClient),
    (2 ≤ (opts.filter isHandleOpt).length ∨
      (a.kms.isSome = true ∧ 1 ≤ (opts.filter isHandleOpt).length)) →
    ∃ e, applyOpts fs opts a = Except.error e := by
  intro opts
  induction opts with
  | nil => intro a h; simp [List.filter_nil] at h
  | cons o os ih =>
    intro a h
    cases ho : ClientOption.set fs o a with
    | error e => exact ⟨KMSErr.failedSettingOption e, by simp [applyOpts, ho]⟩
    | ok a2 =>
      have happ : applyOpts fs (o :: os) a = applyOpts fs os a2 := by simp [applyOpts, ho]
      rw [happ]
      apply ih a2
      by_cases hh : isHandleOpt o = true
      · have h2 : a2.kms.isSome = true := set_handle_sets fs o a a2 hh ho
        rcases h with h | ⟨hsome, _⟩
        · right
          refine ⟨h2, ?_⟩
          simp only [List.filter_cons, hh, if_true, List.length_cons] at h
          omega
        · exact absurd ho (set_handle_conflict fs o a a2 hh hsome)
      · have hf : isHandleOpt o = false := by simpa using hh
        have hkeq : a2.kms = a.kms := set_kms_of_not_handle fs o a a2 hf ho
        rcases h with h | ⟨hsome, hone⟩
        · left
          simpa [List.filter_cons, hf] using h
        · right
          exact ⟨by rw [hkeq]; exact hsome, by simpa [List.filter_cons, hf] using hone⟩

theorem applyOpts_ctx_dup (fs : String → CSVReadResult) :
    ∀ (opts : List ClientOption) (a : AwsClient),
    (2 ≤ (opts.filter isCtxOpt).length ∨
      (a.encryptionContextName ≠ 0 ∧ 1 ≤ (opts.filter isCtxOpt).length)) →
    ∃ e, applyOpts fs opts a = Except.error e := by
  intro opts
  induction opts with
  | nil => intro a h; simp [List.filter_nil] at h
  | cons o os ih =>
    intro a h
    cases ho : ClientOption.set fs o a with
    | error e => exact ⟨KMSErr.failedSettingOption e, by simp [applyOpts, ho]⟩
    | ok a2 =>
      have happ : applyOpts fs (o :: os) a = applyOpts fs os a2 := by simp [applyOpts, ho]
      rw [happ]
      apply ih a2
      by_cases hc : isCtxOpt o = true
      · have h2 : a2.encryptionContextName ≠ 0 := set_ctx_sets fs o a a2 hc ho
        rcases h with h | ⟨hnz, _⟩
        · right
          refine ⟨h2, ?_⟩
          simp only [List.filter_cons, hc, if_true, List.length_cons] at h
          omega
        · exact absurd ho (set_ctx_conflict fs o a a2 hc hnz)
      · have hf : isCtxOpt o = false := by simpa using hc
        have hceq : a2.encryptionContextName = a.encryptionContextName :=
          set_ctx_of_not_ctx fs o a a2 hf ho
        rcases h with h | ⟨hnz, hone⟩
        · left
          simpa [List.filter_cons, hf] using h
        · right
          exact ⟨by rw [hceq]; exact hnz, by simpa [List.filter_cons, hf] using hone⟩

/-- C7: supplying the remote KMS handle more than once by any combination of
WithKMS and WithCredentialPath makes NewClientWithOptions fail, as does
supplying WithEncryptionContextName after the context-field name is already
set; once either field is set, a later successfully-applied option never
overwrites it; and construction succeeds with exactly one handle source. -/
theorem c7_set_once (fs : String → CSVReadResult) (p : String) :
    (∀ opts : List ClientOption, 2 ≤ (opts.filter isHandleOpt).length →
      ∃ e, NewClientWithOptions fs p opts = Except.error e) ∧
    (∀ opts : List ClientOption, 2 ≤ (opts.filter isCtxOpt).length →
      ∃ e, NewClientWithOptions fs p opts = Except.error e) ∧
    (∀ (o : ClientOption) (a a2 : AwsClient) (k : KMSHandle), a.kms = some k →
      ClientOption.set fs o a = Except.ok a2 → a2.kms = some k) ∧
    (∀ (o : ClientOption) (a a2 : AwsClient), a.encryptionContextName ≠ 0 →
      ClientOption.set fs o a = Except.ok a2 →
      a2.encryptionContextName = a.encryptionContextName) ∧
    (∀ k : KMSHandle, strHasPfx (strToLower p) awsPfx = true →
      NewClientWithOptions fs p [ClientOption.withKMS k]
        = Except.ok { keyURIPfx := p, kms := some k, encryptionContextName := 1,
                      builder := BuilderState.v1 }) := by
  refine ⟨?_, ?_, fun o a a2 k hk ho => set_kms_mono fs o a a2 k hk ho,
    fun o a a2 hnz ho => set_ctx_mono fs o a a2 hnz ho, ?_⟩
  · intro opts h2
    by_cases hp : strHasPfx (strToLower p) awsPfx = true
    · rcases applyOpts_handle_dup fs opts { keyURIPfx := p } (Or.inl h2) with ⟨e, he⟩
      exact ⟨e, by simp [NewClientWithOptions, hp, he]⟩
    · exact ⟨KMSErr.badURIPfx awsPfx p, by simp [NewClientWithOptions, hp]⟩
  · intro opts h2
    by_cases hp : strHasPfx (strToLower p) awsPfx = true
    · rcases applyOpts_ctx_dup fs opts { keyURIPfx := p } (Or.inl h2) with ⟨e, he⟩
      exact ⟨e, by simp [NewClientWithOptions, hp, he]⟩
    · exact ⟨KMSErr.badURIPfx awsPfx p, by simp [NewClientWithOptions, hp]⟩
  · intro k hp
    simp [NewClientWithOptions, hp, applyOpts, ClientOption.set, AssociatedData]

/-- Witness for the C7 theorem: two handle options fail, one succeeds. -/
theorem c7_set_once_witness :
    (2 ≤ (([ClientOption.withKMS (KMSHandle.external 1),
            ClientOption.withKMS (KMSHandle.external 2)]).filter isHandleOpt).length) ∧
    (∃ e, NewClientWithOptions (fun _ => CSVReadResult.cannotOpen)
        "aws-kms://arn:aws:kms:us-east-2:key"
        [ClientOption.withKMS (KMSHandle.external 1),
         ClientOption.withKMS (KMSHandle.external 2)] = Except.error e) ∧
    NewClientWithOptions (fun _ => CSVReadResult.cannotOpen)
        "aws-kms://arn:aws:kms:us-east-2:key" [ClientOption.withKMS (KMSHandle.external 1)]
      = Except.ok { keyURIPfx := "aws-kms://arn:aws:kms:us-east-2:key",
                    kms := some (KMSHandle.external 1), encryptionContextName := 1,
                    builder := BuilderState.v1 } := by
  refine ⟨by decide, ?_, ?_⟩
  · exact (c7_set_once (fun _ => CSVReadResult.cannotOpen)
      "aws-kms://arn:aws:kms:us-east-2:key").1 _ (by decide)
  · exact (c7_set_once (fun _ => CSVReadResult.cannotOpen)
      "aws-kms://arn:aws:kms:us-east-2:key").2.2.2.2 (KMSHandle.external 1) (by decide)
/-! ### C8: default encryption-context name -/

theorem applyOpts_ctx_of_no_ctxopt (fs : String → CSVReadResult) :
    ∀ (opts : List ClientOption) (a a2 : AwsClient),
    (∀ n, ClientOption.withEncryptionContextName n ∉ opts) →
    applyOpts fs opts a = Except.ok a2 →
    a2.encryptionContextName = a.encryptionContextName := by
  intro opts
  induction opts with
  | nil =>
    intro a a2 _ h
    simp only [applyOpts, Except.ok.injEq] at h
    rw [← h]
  | cons o os ih =>
    intro a a2 hno h
    cases ho : ClientOption.set fs o a with
    | error e =>
      rw [show applyOpts fs (o :: os) a = Except.error (KMSErr.failedSettingOption e) from
        by simp [applyOpts, ho]] at h
      simp at h
    | ok am =>
      have happ : applyOpts fs (o :: os) a = applyOpts fs os am := by simp [applyOpts, ho]
      rw [happ] at h
      have hmid : am.encryptionContextName = a.encryptionContextName := by
        apply set_ctx_of_not_ctx fs o a am ?_ ho
        cases o with
        | withCredentialPath q => rfl
        | withKMS k => rfl
        | withEncryptionContextName n => exact absurd (List.mem_cons_self _ _) (hno n)
        | useV2 => rfl
        | withV2KMSOptions o2 => rfl
      have htail : ∀ n, ClientOption.withEncryptionContextName n ∉ os :=
        fun n hn => hno n (List.mem_cons_of_mem o hn)
      rw [ih am a2 htail h, hmid]

/-- C8: for every accepted uriPrefix and every option sequence containing no
WithEncryptionContextName option, the client returned by NewClientWithOptions
has its encryption-context field name set to the newer value AssociatedData,
whose string is "associatedData"; the only legal values in the name table are
"associatedData" and "additionalData". -/
theorem c8_default_ctx_name (fs : String → CSVReadResult) (p : String)
    (opts : List ClientOption) (c : AwsClient)
    (hno : ∀ n, ClientOption.withEncryptionContextName n ∉ opts)
    (hok : NewClientWithOptions fs p opts = Except.ok c) :
    c.encryptionContextName = AssociatedData ∧
    encryptionContextNames c.encryptionContextName = some "associatedData" ∧
    (∀ n s2, encryptionContextNames n = some s2 →
      s2 = "associatedData" ∨ s2 = "additionalData") := by
  have hc1 : c.encryptionContextName = AssociatedData := by
    unfold NewClientWithOptions at hok
    split at hok
    · simp at hok
    · split at hok
      · simp at hok
      · next a ha =>
        injection hok with hok
        have h0 : a.encryptionContextName = 0 :=
          applyOpts_ctx_of_no_ctxopt fs opts { keyURIPfx := p } a hno ha
        rw [← hok, if_pos h0]
  refine ⟨hc1, by rw [hc1]; rfl, ?_⟩
  intro n s2 hn
  unfold encryptionContextNames at hn
  split_ifs at hn
  · injection hn with hn
    exact Or.inl hn.symm
  · injection hn with hn
    exact Or.inr hn.symm

/-- Witness for the C8 theorem: the empty option list on an accepted prefix
yields a client whose context-field name is AssociatedData. -/
theorem c8_default_ctx_name_witness :
    (∀ n, ClientOption.withEncryptionContextName n ∉ ([] : List ClientOption)) ∧
    NewClientWithOptions (fun _ => CSVReadResult.cannotOpen)
        "aws-kms://arn:aws:kms:us-east-2:key" []
      = Except.ok { keyURIPfx := "aws-kms://arn:aws:kms:us-east-2:key", kms := none,
                    encryptionContextName := 1, builder := BuilderState.v1 } ∧
    ({ keyURIPfx := "aws-kms://arn:aws:kms:us-east-2:key", kms := none,
       encryptionContextName := 1, builder := BuilderState.v1 } : AwsClient).encryptionContextName
      = AssociatedData := by
  refine ⟨fun n => List.not_mem_nil _, by decide, ?_⟩
  exact (c8_default_ctx_name (fun _ => CSVReadResult.cannotOpen)
    "aws-kms://arn:aws:kms:us-east-2:key" [] _
    (fun n => List.not_mem_nil _) (by decide)).1
/-! ### C9: handle memoization -/

theorem getAEAD_cases (c : AwsClient) (s : String) :
    ((GetAEAD c s).2.2 = false ∧ handleOf (GetAEAD c s).2.1 = handleOf c ∧
      (∀ a, (GetAEAD c s).1 = Except.ok a → handleOf c = some a.handle)) ∨
    ((GetAEAD c s).2.2 = true ∧ handleOf c = none ∧
      (∃ hh, handleOf (GetAEAD c s).2.1 = some hh ∧
        ∀ a, (GetAEAD c s).1 = Except.ok a → a.handle = hh)) := by
  cases hs : Supported c s with
  | false =>
    left
    rw [getAEAD_unsupported c s hs]
    exact ⟨rfl, rfl, fun a ha => absurd ha (by simp)⟩
  | true =>
    cases hb : c.builder with
    | v1 =>
      cases hk : c.kms with
      | some k =>
        left
        rw [getAEAD_v1_some c s k hs hb hk]
        refine ⟨rfl, rfl, fun a ha => ?_⟩
        simp only [Except.ok.injEq] at ha
        subst ha
        simp [handleOf, hb, hk, AEAD.handle]
      | none =>
        cases hg : getKMS c.keyURIPfx with
        | error e =>
          left
          rw [getAEAD_v1_none_err c s e hs hb hk hg]
          exact ⟨rfl, rfl, fun a ha => absurd ha (by simp)⟩
        | ok k =>
          right
          rw [getAEAD_v1_none_ok c s k hs hb hk hg]
          refine ⟨rfl, by simp [handleOf, hb, hk], k, by simp [handleOf, hb], fun a ha => ?_⟩
          simp only [Except.ok.injEq] at ha
          subst ha
          simp [AEAD.handle]
    | v2 v =>
      cases hk : v.kms with
      | some k =>
        left
        rw [getAEAD_v2_some c s v k hs hb hk]
        refine ⟨rfl, by simp [handleOf, hb, hk, kms_withDefaultTimeout], fun a ha => ?_⟩
        simp only [Except.ok.injEq] at ha
        subst ha
        simp [handleOf, hb, hk, AEAD.handle]
      | none =>
        right
        rw [getAEAD_v2_none c s v hs hb hk]
        refine ⟨rfl, by simp [handleOf, hb, hk],
          KMSHandle.fromV2Config (V2Client.withDefaultTimeout v).loadOpts
            (V2Client.withDefaultTimeout v).kmsOpts,
          by simp [handleOf, hb], fun a ha => ?_⟩
        simp only [Except.ok.injEq] at ha
        subst ha
        simp [AEAD.handle]

theorem runCalls_zero_of_handle_some :
    ∀ (uris : List String) (c : AwsClient) (h : KMSHandle),
    handleOf c = some h → (runCalls c uris).2 = 0 := by
  intro uris
  induction uris with
  | nil => intro c h _; rfl
  | cons u us ih =>
    intro c h hh
    rcases getAEAD_cases c u with ⟨hf, hpres, _⟩ | ⟨_, hnone, _⟩
    · have hz := ih (GetAEAD c u).2.1 h (by rw [hpres, hh])
      simp [runCalls, hf, hz]
    · rw [hh] at hnone
      cases hnone
  
theorem runCalls_le_one : ∀ (uris : List String) (c : AwsClient),
    (runCalls c uris).2 ≤ 1 := by
  intro uris
  induction uris with
  | nil => intro c; simp [runCalls]
  | cons u us ih =>
    intro c
    rcases getAEAD_cases c u with ⟨hf, _, _⟩ | ⟨hf, _, hh, hsome, _⟩
    · simp only [runCalls, hf]
      simpa using ih (GetAEAD c u).2.1
    · simp only [runCalls, hf]
      have hz := runCalls_zero_of_handle_some us (GetAEAD c u).2.1 hh hsome
      simp [hz]

/-- C9: once the active strategy's handle is resolved, every GetAEAD call
constructs no new handle, preserves the resolved handle on the descriptor,
and binds any returned adapter to exactly that handle; when no handle is
resolved yet, a successful GetAEAD call constructs one and memoizes it on the
descriptor (it is the returned adapter's handle); consequently any sequence
of GetAEAD calls on one descriptor constructs at most one handle, for both
the legacy and the newer strategy (each call may still return a fresh
adapter value). -/
theorem c9_handle_memoized :
    (∀ (c : AwsClient) (s : String) (h : KMSHandle), handleOf c = some h →
      (GetAEAD c s).2.2 = false ∧ handleOf (GetAEAD c s).2.1 = some h ∧
      (∀ a, (GetAEAD c s).1 = Except.ok a → a.handle = h)) ∧
    (∀ (c : AwsClient) (s : String) (a : AEAD), handleOf c = none →
      (GetAEAD c s).1 = Except.ok a →
      (GetAEAD c s).2.2 = true ∧ handleOf (GetAEAD c s).2.1 = some a.handle) ∧
    (∀ (c : AwsClient) (uris : List String), (runCalls c uris).2 ≤ 1) := by
  refine ⟨?_, ?_, fun c uris => runCalls_le_one uris c⟩
  · intro c s h hh
    rcases getAEAD_cases c s with ⟨hf, hpres, hbind⟩ | ⟨_, hnone, _⟩
    · refine ⟨hf, by rw [hpres, hh], fun a ha => ?_⟩
      have := hbind a ha
      rw [hh] at this
      injection this with this
      exact this.symm
    · rw [hh] at hnone
      cases hnone
  · intro c s a hh ha
    rcases getAEAD_cases c s with ⟨_, _, hbind⟩ | ⟨hf, _, hh2, hsome, hall⟩
    · have := hbind a ha
      rw [hh] at this
      cases this
    · exact ⟨hf, by rw [hsome, hall a ha]⟩
/-! ### C10: scheme case sensitivity -/

theorem set_pfx_preserved (fs : String → CSVReadResult) (o : ClientOption)
    (a a2 : AwsClient) (ho : ClientOption.set fs o a = Except.ok a2) :
    a2.keyURIPfx = a.keyURIPfx := by
  cases o with
  | withCredentialPath p =>
    simp only [ClientOption.set] at ho
    split at ho
    · simp at ho
    · split at ho
      · simp at ho
      · injection ho with ho
        subst ho
        rfl
  | withKMS k =>
    simp only [ClientOption.set] at ho
    split at ho
    · simp at ho
    · injection ho with ho
      subst ho
      rfl
  | withEncryptionContextName n =>
    simp only [ClientOption.set] at ho
    split at ho
    · simp at ho
    · split at ho
      · simp at ho
      · injection ho with ho
        subst ho
        rfl
  | useV2 =>
    simp only [ClientOption.set] at ho
    injection ho with ho
    subst ho
    rfl
  | withV2KMSOptions o2 =>
    simp only [ClientOption.set] at ho
    split at ho
    · simp at ho
    · injection ho with ho
      subst ho
      rfl

theorem applyOpts_pfx (fs : String → CSVReadResult) :
    ∀ (opts : List ClientOption) (a a2 : AwsClient),
    applyOpts fs opts a = Except.ok a2 → a2.keyURIPfx = a.keyURIPfx := by
  intro opts
  induction opts with
  | nil =>
    intro a a2 h
    simp only [applyOpts, Except.ok.injEq] at h
    rw [← h]
  | cons o os ih =>
    intro a a2 h
    cases ho : ClientOption.set fs o a with
    | error e =>
      rw [show applyOpts fs (o :: os) a = Except.error (KMSErr.failedSettingOption e) from
        by simp [applyOpts, ho]] at h
      simp at h
    | ok am =>
      have happ : applyOpts fs (o :: os) a = applyOpts fs os am := by simp [applyOpts, ho]
      rw [happ] at h
      rw [ih am a2 h, set_pfx_preserved fs o a am ho]

theorem newClient_ok_facts (fs : String → CSVReadResult) (p : String)
    (opts : List ClientOption) (c : AwsClient)
    (hok : NewClientWithOptions fs p opts = Except.ok c) :
    strHasPfx (strToLower p) awsPfx = true ∧ c.keyURIPfx = p := by
  unfold NewClientWithOptions at hok
  split at hok
  · simp at hok
  · next hcond =>
    have hacc : strHasPfx (strToLower p) awsPfx = true := not_not.mp hcond
    refine ⟨hacc, ?_⟩
    split at hok
    · simp at hok
    · next a ha =>
      injection hok with hok
      have hpfx : a.keyURIPfx = p := applyOpts_pfx fs opts { keyURIPfx := p } a ha
      rw [← hok]
      by_cases h0 : a.encryptionContextName = 0 <;> simp [h0, hpfx]

theorem hasPfx_false_trans (p s : String)
    (hlen : awsPfx.data.length ≤ p.data.length)
    (hlow : strHasPfx p awsPfx = false)
    (hsup : strHasPfx s p = true) :
    strHasPfx s awsPfx = false := by
  cases hq : strHasPfx s awsPfx with
  | false => rfl
  | true =>
    exfalso
    unfold strHasPfx at hq hsup hlow
    rw [List.isPrefixOf_iff_prefix] at hq hsup
    have hp : awsPfx.data <+: p.data :=
      List.prefix_of_prefix_length_le hq hsup hlen
    rw [← List.isPrefixOf_iff_prefix] at hp
    rw [hp] at hlow
    cases hlow

/-- C10 counterexample: a configured prefix whose scheme is not lowercase but
which contains the lowercase grammar further inside.  It is accepted at build
time, a supported key URI keeps its scheme after trimming, and the legacy
region parser nevertheless succeeds, because the regular expression searches
anywhere in the identifier, so the failure the claim asserts for every such
client does not occur. -/
theorem c10_counterexample :
    NewClientWithOptions (fun _ => CSVReadResult.cannotOpen)
        "AWS-KMS://aws-kms://arn:aws:kms:us-east-2:" []
      = Except.ok { keyURIPfx := "AWS-KMS://aws-kms://arn:aws:kms:us-east-2:", kms := none,
                    encryptionContextName := 1, builder := BuilderState.v1 } ∧
    strHasPfx "AWS-KMS://aws-kms://arn:aws:kms:us-east-2:" awsPfx = false ∧
    getRegion "AWS-KMS://aws-kms://arn:aws:kms:us-east-2:" = Except.ok "us-east-2" ∧
    (GetAEAD { keyURIPfx := "AWS-KMS://aws-kms://arn:aws:kms:us-east-2:", kms := none,
               encryptionContextName := 1, builder := BuilderState.v1 }
        "AWS-KMS://aws-kms://arn:aws:kms:us-east-2:key").1
      = Except.ok (AEAD.v1 "AWS-KMS://aws-kms://arn:aws:kms:us-east-2:key"
          (KMSHandle.fromSession "us-east-2" CredsSource.defaultCreds) 1) := by
  exact ⟨by decide, by decide, by decide, by decide⟩

/-- C10 (amended): NewClientWithOptions accepts a uriPrefix whose scheme is
spelled in any letter case (the prefix check lowercases first), but GetAEAD
removes only the exact lowercase "aws-kms://" from the front of the key URI;
hence for every client whose configured prefix does not itself start with the
lowercase scheme, every supported key URI is handed to the handle-construction
strategy unchanged, its scheme still attached; the legacy region parser
matches only the lowercase grammar, so it fails on the canonical such
identifier "AWS-KMS://arn:aws:kms:us-east-2:" (though not on contrived
prefixes that contain the lowercase grammar elsewhere inside). -/
theorem c10_scheme_case_amended (fs : String → CSVReadResult)
    (p s : String) (opts : List ClientOption) (c : AwsClient)
    (hok : NewClientWithOptions fs p opts = Except.ok c)
    (hlow : strHasPfx p awsPfx = false)
    (hsup : Supported c s = true) :
    strTrimPfx s awsPfx = s ∧ c.keyURIPfx = p ∧
    getRegion "AWS-KMS://arn:aws:kms:us-east-2:" = Except.error KMSErr.regionFailed := by
  rcases newClient_ok_facts fs p opts c hok with ⟨hacc, hpfx⟩
  have hlen : awsPfx.data.length ≤ p.data.length := by
    have h1 : awsPfx.data <+: p.data.map Char.toLower := by
      rw [← List.isPrefixOf_iff_prefix]
      exact hacc
    have h2 := h1.length_le
    simpa using h2
  have hsup2 : strHasPfx s p = true := by
    rw [show strHasPfx s p = Supported c s from by rw [Supported, hpfx]]
    exact hsup
  have hnot : strHasPfx s awsPfx = false := hasPfx_false_trans p s hlen hlow hsup2
  refine ⟨?_, hpfx, by decide⟩
  simp [strTrimPfx, hnot]

/-- Witness for the amended C10 theorem: an uppercase-scheme prefix, accepted
at build time, whose supported key URI is not trimmed. -/
theorem c10_scheme_case_amended_witness :
    NewClientWithOptions (fun _ => CSVReadResult.cannotOpen)
        "AWS-KMS://arn:aws:kms:us-east-2:" []
      = Except.ok { keyURIPfx := "AWS-KMS://arn:aws:kms:us-east-2:", kms := none,
                    encryptionContextName := 1, builder := BuilderState.v1 } ∧
    strHasPfx "AWS-KMS://arn:aws:kms:us-east-2:" awsPfx = false ∧
    Supported { keyURIPfx := "AWS-KMS://arn:aws:kms:us-east-2:", kms := none,
                encryptionContextName := 1, builder := BuilderState.v1 }
        "AWS-KMS://arn:aws:kms:us-east-2:key" = true ∧
    strTrimPfx "AWS-KMS://arn:aws:kms:us-east-2:key" awsPfx
      = "AWS-KMS://arn:aws:kms:us-east-2:key" := by
  refine ⟨by decide, by decide, by decide, ?_⟩
  exact (c10_scheme_case_amended (fun _ => CSVReadResult.cannotOpen)
    "AWS-KMS://arn:aws:kms:us-east-2:" "AWS-KMS://arn:aws:kms:us-east-2:key" []
    { keyURIPfx := "AWS-KMS://arn:aws:kms:us-east-2:", kms := none,
      encryptionContextName := 1, builder := BuilderState.v1 }
    (by decide) (by decide) (by decide)).1
end Awskms
